import Mathlib

/-!
# Verification of the semantic-layer resolution-and-execution pipeline

This file gives a shallow embedding of the core of the
`palantir-style-semantic-layer` repository and proves (or refutes) the
specification claims about it.

Embedding conventions, used throughout:

* JSON-like maps (`Dict[str, Any]` in the source) are association lists
  `List (String × String)`; values are modelled as strings, since the code
  only ever compares them for equality.  `Optional[Dict]` becomes
  `Option (List (String × String))`, and Python's truthiness test on such a
  value (`if not d:`), which is `True` for both `None` and `{}`, is the
  function `dictTruthy`.
* Timestamps (`datetime`) are integers compared with `≤`/`<`; only their
  ordering is used by the code.
* Python exceptions become `Except`/sum results; the constructors record the
  exception class and its payload (e.g. `AmbiguityError.candidates`).
* `sorted(..., key=..., reverse=True)` (a stable sort) is embedded as
  `List.insertionSort` with the relation `key a ≥ key b`, which is also a
  stable sort, hence produces the same list.
-/

namespace SemanticLayer

/-- JSON-like string-valued map (a Python `dict`), as an association list. -/
abbrev Dict := List (String × String)

/-- `d.get(k)` on a Python dict: the value of the first binding of `k`. -/
def dictGet (d : Dict) (k : String) : Option String :=
  List.lookup k d

/-- Python truthiness of an `Optional[Dict]` value: `None` and the empty
dict `{}` are falsy, every non-empty dict is truthy. -/
def dictTruthy : Option Dict → Bool
  | none => false
  | some d => !d.isEmpty

-- ============================================================
-- Data model (src/src/semantic_layer/models.py)
-- ============================================================

/-- `SemanticVersion` from `models.py`: one version of a metric definition
(`effective_from`/`effective_to` timestamps, optional scenario condition,
active flag, integer priority). -/
structure SemanticVersion where
  id : Int
  semantic_object_id : Int
  version_name : String
  effective_from : Int
  effective_to : Option Int
  scenario_condition : Option Dict
  is_active : Bool
  priority : Int
  deriving Repr, DecidableEq

/-- `SemanticVersion.is_effective` (models.py:293-303).  The Python method
defaults a missing timestamp to `datetime.now()`; here the timestamp is an
explicit argument, as in every claim. -/
def SemanticVersion.is_effective (v : SemanticVersion) (timestamp : Int) : Bool :=
  if !v.is_active then false
  else if timestamp < v.effective_from then false
  else
    match v.effective_to with
    | some tto => if timestamp > tto then false else true
    | none => true

/-- `SemanticVersion.matches_scenario` (models.py:305-319): with no (or an
empty) condition the version is the default and matches; with a condition but
no (or an empty) scenario it does not match; otherwise all condition
key/value pairs must be present in the scenario. -/
def SemanticVersion.matches_scenario (v : SemanticVersion) (scenario : Option Dict) : Bool :=
  if !dictTruthy v.scenario_condition then true
  else if !dictTruthy scenario then false
  else
    (v.scenario_condition.getD []).all fun kv =>
      dictGet (scenario.getD []) kv.1 == some kv.2

-- ============================================================
-- Scenario matcher (src/src/semantic_layer/scenario_matcher.py)
-- ============================================================

namespace ScenarioMatcher

/-- `ScenarioMatchResult` dataclass (scenario_matcher.py:16-24). -/
structure ScenarioMatchResult where
  version_id : Int
  version_name : String
  score : Int
  reason : String
  is_time_effective : Bool
  matches_scenario : Bool
  deriving Repr, DecidableEq

/-- Score constant `SCORE_SCENARIO_AND_TIME_MATCH`. -/
def SCORE_SCENARIO_AND_TIME_MATCH : Int := 2
/-- Score constant `SCORE_DEFAULT_TIME_EFFECTIVE`. -/
def SCORE_DEFAULT_TIME_EFFECTIVE : Int := 1
/-- Score constant `SCORE_NO_MATCH`. -/
def SCORE_NO_MATCH : Int := 0

/-- `ScenarioMatcher._calculate_score` (scenario_matcher.py:85-128).
Reasons keep the source's static prefixes; the interpolated dict dumps are
dropped (no claim inspects them). -/
def calculate_score (scenario_condition : Option Dict)
    (is_time_effective matches_scenario : Bool) : Int × String :=
  if !is_time_effective then
    (SCORE_NO_MATCH, "not_time_effective")
  else if dictTruthy scenario_condition && matches_scenario then
    (SCORE_SCENARIO_AND_TIME_MATCH, "scenario_match")
  else if dictTruthy scenario_condition && !matches_scenario then
    (SCORE_NO_MATCH, "scenario_mismatch")
  else if !dictTruthy scenario_condition then
    (SCORE_DEFAULT_TIME_EFFECTIVE, "default_version_no_scenario")
  else
    (SCORE_NO_MATCH, "unknown")

/-- `ScenarioMatcher.evaluate_version` (scenario_matcher.py:48-83).  The
Python method also receives the version's `priority`, which it never uses. -/
def evaluate_version (version : SemanticVersion) (scenario : Option Dict)
    (timestamp : Int) : ScenarioMatchResult :=
  let is_time_effective := version.is_effective timestamp
  let matchesScenario := version.matches_scenario scenario
  let sr := calculate_score version.scenario_condition is_time_effective matchesScenario
  { version_id := version.id
    version_name := version.version_name
    score := sr.1
    reason := sr.2
    is_time_effective := is_time_effective
    matches_scenario := matchesScenario }

end ScenarioMatcher

-- ============================================================
-- Claim C9: time-effectiveness
-- ============================================================

/-- C9: a version is time-effective at `T` iff it is active, `T` is at or
after `effective_from`, and at or before `effective_to` whenever an
`effective_to` is set — both bounds inclusive. -/
theorem c9_time_effectiveness (v : SemanticVersion) (T : Int) :
    v.is_effective T = true ↔
      (v.is_active = true ∧ v.effective_from ≤ T ∧
        ∀ tto, v.effective_to = some tto → T ≤ tto) := by
  unfold SemanticVersion.is_effective
  cases hact : v.is_active <;> cases htto : v.effective_to <;>
    simp_all [not_lt]

-- ============================================================
-- Claim C3: scenario scoring
-- ============================================================

/-- The key/value pairs of a version's scenario condition (empty when the
condition is absent). -/
def condPairs (v : SemanticVersion) : Dict :=
  v.scenario_condition.getD []

/-- Modelled from the spec: claim C3's scoring rule exactly as the claim
states it, where "has a scenario-condition" means the condition is present
(`isSome`), and full match is the claim's own matching formula ("the
condition is empty, or the scenario is non-null and every condition key maps
to the same value in the scenario").  Used only to compare the claim against
the code's scoring. -/
def c3_claim_score (v : SemanticVersion) (scenario : Option Dict) (timestamp : Int) : Int :=
  if v.is_effective timestamp = false then 0
  else if v.scenario_condition.isSome ∧
      (condPairs v = [] ∨
        (scenario ≠ none ∧
          ∀ kv ∈ condPairs v, dictGet (scenario.getD []) kv.1 = some kv.2)) then 2
  else if v.scenario_condition.isSome then 0
  else 1

/-- Modelled from the spec: claim C3's scoring rule amended only at the
empty-condition edge: a present-but-empty condition (`{}`, which is falsy in
Python) scores like "no condition" (1), not like a vacuously matching
condition (2). -/
def c3_amended_score (v : SemanticVersion) (scenario : Option Dict) (timestamp : Int) : Int :=
  if v.is_effective timestamp = false then 0
  else if condPairs v ≠ [] ∧
      (scenario ≠ none ∧
        ∀ kv ∈ condPairs v, dictGet (scenario.getD []) kv.1 = some kv.2) then 2
  else if condPairs v ≠ [] then 0
  else 1

/-- C3 counterexample: a version that is active and time-effective but whose
scenario condition is the *empty* dict `{}` is scored 1 (the default-version
score) by `_calculate_score`, because an empty dict is falsy in Python —
whereas the claim, which keys its 2-score case on "has a scenario-condition
... every key/value pair of that condition equals the supplied scenario"
(vacuously true for `{}`), demands a score of 2. -/
theorem c3_counterexample :
    (ScenarioMatcher.evaluate_version
        { id := 1, semantic_object_id := 1, version_name := "V_empty_cond",
          effective_from := 0, effective_to := none,
          scenario_condition := some [], is_active := true, priority := 0 }
        none 0).score = 1 ∧
    c3_claim_score
        { id := 1, semantic_object_id := 1, version_name := "V_empty_cond",
          effective_from := 0, effective_to := none,
          scenario_condition := some [], is_active := true, priority := 0 }
        none 0 = 2 ∧
    (1 : Int) ≠ 2 := by
  refine ⟨by decide, ?_, by decide⟩
  simp [c3_claim_score, condPairs, SemanticVersion.is_effective]

/-- C3 (amended): the evaluated score follows the claimed rule with "has a
scenario-condition" read as "has a non-empty scenario-condition" (a
present-but-empty condition counts as no condition, scoring 1); and the
code's scenario matching coincides exactly with the claim's matching
formula: the condition matches iff it is empty, or the scenario is non-null
and every condition key maps to the same value in the scenario. -/
theorem c3_scenario_scoring (v : SemanticVersion) (scenario : Option Dict) (timestamp : Int) :
    (ScenarioMatcher.evaluate_version v scenario timestamp).score
        = c3_amended_score v scenario timestamp ∧
    (v.matches_scenario scenario = true ↔
      (condPairs v = [] ∨
        (scenario ≠ none ∧
          ∀ kv ∈ condPairs v, dictGet (scenario.getD []) kv.1 = some kv.2))) := by
  have hmatch : v.matches_scenario scenario = true ↔
      (condPairs v = [] ∨
        (scenario ≠ none ∧
          ∀ kv ∈ condPairs v, dictGet (scenario.getD []) kv.1 = some kv.2)) := by
    unfold SemanticVersion.matches_scenario condPairs
    cases hc : v.scenario_condition with
    | none => simp [dictTruthy]
    | some c =>
      cases c with
      | nil => simp [dictTruthy]
      | cons kv rest =>
        cases hs : scenario with
        | none => simp [dictTruthy]
        | some s =>
          cases s with
          | nil =>
            constructor
            · intro h
              exfalso
              simp [dictTruthy] at h
            · rintro (h | ⟨_, h2⟩)
              · exact absurd h (by simp)
              · exact absurd (h2 kv (by simp)) (by simp [dictGet])
          | cons p ps => simp [dictTruthy, List.all_eq_true]
  have htruthy : dictTruthy v.scenario_condition = true ↔ condPairs v ≠ [] := by
    unfold dictTruthy condPairs
    cases hc : v.scenario_condition with
    | none => simp
    | some c => cases c <;> simp
  refine ⟨?_, hmatch⟩
  unfold ScenarioMatcher.evaluate_version ScenarioMatcher.calculate_score c3_amended_score
    ScenarioMatcher.SCORE_NO_MATCH ScenarioMatcher.SCORE_DEFAULT_TIME_EFFECTIVE
    ScenarioMatcher.SCORE_SCENARIO_AND_TIME_MATCH
  simp only
  cases heff : v.is_effective timestamp with
  | false => simp [heff]
  | true =>
    cases hdt : dictTruthy v.scenario_condition with
    | false =>
      have hempty : condPairs v = [] := by
        by_contra hne
        simp [htruthy.mpr hne] at hdt
      have hm : v.matches_scenario scenario = true := by
        unfold SemanticVersion.matches_scenario
        simp [hdt]
      simp [heff, hdt, hm, hempty]
    | true =>
      have hne : condPairs v ≠ [] := htruthy.mp hdt
      cases hm : v.matches_scenario scenario with
      | true =>
        obtain ⟨hs, hall⟩ := (hmatch.mp hm).resolve_left hne
        simp only [heff, hdt, hm, Bool.not_true, Bool.and_self, if_true,
          Bool.false_eq_true, if_false]
        exact (if_pos ⟨hne, hs, hall⟩).symm
      | false =>
        have hnofull : ¬(scenario ≠ none ∧
            ∀ kv ∈ condPairs v, dictGet (scenario.getD []) kv.1 = some kv.2) := by
          intro hfull
          simp [hmatch.mpr (Or.inr hfull)] at hm
        have hcondflat : ¬(condPairs v ≠ [] ∧ scenario ≠ none ∧
            ∀ kv ∈ condPairs v, dictGet (scenario.getD []) kv.1 = some kv.2) := by
          rintro ⟨_, h2, h3⟩
          exact hnofull ⟨h2, h3⟩
        simp only [heff, hdt, hm, Bool.not_true, Bool.not_false, Bool.and_true,
          Bool.and_false, Bool.false_eq_true, if_false, if_true]
        rw [if_neg (by simp : ¬(true = false)), if_neg hcondflat, if_pos hne]

-- ============================================================
-- Version selection (scenario_matcher.py : select_best_version,
--  semantic_resolver.py : resolve_version)
-- ============================================================

/-- Maximum of a list of integers with a starting value (Python's `max`
over a non-empty collection, applied with the first element as the seed). -/
def listMaxInt (init : Int) (l : List Int) : Int :=
  l.foldl max init

theorem le_listMaxInt_init (init : Int) (l : List Int) : init ≤ listMaxInt init l := by
  induction l generalizing init with
  | nil => simp [listMaxInt]
  | cons x xs ih =>
    have h := ih (max init x)
    calc init ≤ max init x := le_max_left _ _
      _ ≤ listMaxInt (max init x) xs := h
      _ = listMaxInt init (x :: xs) := rfl

theorem le_listMaxInt_of_mem {x : Int} {l : List Int} (init : Int) (hx : x ∈ l) :
    x ≤ listMaxInt init l := by
  induction l generalizing init with
  | nil => simp at hx
  | cons y ys ih =>
    rcases List.mem_cons.mp hx with rfl | hmem
    · calc x ≤ max init x := le_max_right _ _
        _ ≤ listMaxInt (max init x) ys := le_listMaxInt_init _ _
        _ = listMaxInt init (x :: ys) := rfl
    · exact ih (max init y) hmem

theorem listMaxInt_eq_init_or_mem (init : Int) (l : List Int) :
    listMaxInt init l = init ∨ listMaxInt init l ∈ l := by
  induction l generalizing init with
  | nil => left; rfl
  | cons x xs ih =>
    rcases ih (max init x) with h | h
    · rcases max_cases init x with ⟨hm, _⟩ | ⟨hm, _⟩
      · left
        simpa [listMaxInt, hm] using h
      · right
        rw [hm] at h
        simp only [listMaxInt, List.foldl_cons]
        rw [hm, show List.foldl max x xs = x from h]
        exact List.mem_cons_self _ _
    · right
      simp only [listMaxInt, List.foldl_cons]
      exact List.mem_cons_of_mem _ h

namespace ScenarioMatcher

/-- Errors raised by `select_best_version`: a bare `ValueError` for an empty
input, or `AmbiguityError` (models.py:579-592) carrying the candidate
`(id, name, priority)` tuples. -/
inductive SelectError where
  | valueError (msg : String)
  | ambiguity (candidates : List (Int × String × Int)) (msg : String)
  deriving Repr, DecidableEq

/-- `versions_with_priority.get(version_id, 0)`: a version's priority with
default 0. -/
def prioOf (versions_with_priority : List (Int × Int)) (version_id : Int) : Int :=
  (List.lookup version_id versions_with_priority).getD 0

/-- The best (maximum) score among the evaluated results
(`max(score_groups.keys())` in the source; 0 for an empty list, which the
source never reaches). -/
def maxScoreOf : List ScenarioMatchResult → Int
  | [] => 0
  | r0 :: rest => listMaxInt r0.score ((r0 :: rest).map (·.score))

/-- The maximum-score group (`score_groups[max_score]` in the source:
grouping by score and indexing at the maximum key keeps exactly the results
whose score is maximal, in input order). -/
def topScoreGroup (match_results : List ScenarioMatchResult) : List ScenarioMatchResult :=
  match_results.filter (fun r => r.score == maxScoreOf match_results)

/-- The top priority within a group of results (the priority of the head of
the descending-priority sort; equivalently the maximum priority in the
group; 0 for an empty group). -/
def maxPrioOf (versions_with_priority : List (Int × Int)) :
    List ScenarioMatchResult → Int
  | [] => 0
  | g0 :: gs =>
    listMaxInt (prioOf versions_with_priority g0.version_id)
      ((g0 :: gs).map fun r => prioOf versions_with_priority r.version_id)

/-- The descending-priority ordering used by
`sorted(best_candidates, key=priority, reverse=True)`: `a` may come before
`b` when `a`'s priority is at least `b`'s. -/
def prioRel (versions_with_priority : List (Int × Int))
    (a b : ScenarioMatchResult) : Prop :=
  prioOf versions_with_priority b.version_id ≤ prioOf versions_with_priority a.version_id

instance prioRel.decidable (p : List (Int × Int)) : DecidableRel (prioRel p) :=
  fun _ _ => Int.decLe _ _

instance prioRel.total (p : List (Int × Int)) : IsTotal ScenarioMatchResult (prioRel p) :=
  ⟨fun a b => le_total (prioOf p b.version_id) (prioOf p a.version_id)⟩

instance prioRel.trans (p : List (Int × Int)) : IsTrans ScenarioMatchResult (prioRel p) :=
  ⟨fun _ _ _ hab hbc => le_trans hbc hab⟩

/-- The ambiguity message of `select_best_version` (interpolated score and
priority dropped). -/
def msgAmbiguity : String :=
  "Multiple versions have the same score and priority. Please clarify which version to use."

/-- The tail of `ScenarioMatcher.select_best_version`
(scenario_matcher.py:163-200), applied to the maximum-score group
`best_candidates`: a single candidate is returned; otherwise the candidates
are stably sorted by descending priority, the unique top-priority candidate
is returned, and a residual tie raises `AmbiguityError` with the
`(id, name, priority)` tuples of the sorted candidates.  Python's stable
`sorted(..., reverse=True)` is embedded as the stable `List.insertionSort`
under `prioRel`; both are stable sorts by the same key, hence compute the
same list. -/
def select_from_candidates (versions_with_priority : List (Int × Int)) :
    List ScenarioMatchResult → Except SelectError ScenarioMatchResult
  | [] => .error (.valueError "no best candidate")
  | [b] => .ok b
  | b0 :: b1 :: bs =>
    match List.insertionSort (prioRel versions_with_priority) (b0 :: b1 :: bs) with
    | [] => .error (.valueError "no prioritized candidate")
    | p0 :: ps =>
      let top_priority := prioOf versions_with_priority p0.version_id
      let top_priority_count := (p0 :: ps).countP
        (fun r => prioOf versions_with_priority r.version_id == top_priority)
      if top_priority_count == 1 then .ok p0
      else .error (.ambiguity
        ((p0 :: ps).map fun r =>
          (r.version_id, r.version_name, prioOf versions_with_priority r.version_id))
        msgAmbiguity)

/-- `ScenarioMatcher.select_best_version` (scenario_matcher.py:130-200):
empty input raises `ValueError`; otherwise the results are grouped by score,
the maximum-score group is kept (`topScoreGroup`: grouping by score and
indexing the dict at the maximum key is filtering at the maximum score, in
input order), and selection proceeds on that group. -/
def select_best_version (match_results : List ScenarioMatchResult)
    (versions_with_priority : List (Int × Int)) : Except SelectError ScenarioMatchResult :=
  match match_results with
  | [] => .error (.valueError "No versions to select from")
  | r0 :: rest =>
    select_from_candidates versions_with_priority (topScoreGroup (r0 :: rest))

theorem topScoreGroup_ne_nil {l : List ScenarioMatchResult} (hne : l ≠ []) :
    topScoreGroup l ≠ [] := by
  cases l with
  | nil => exact absurd rfl hne
  | cons r0 rest =>
    have hmem : ∃ r ∈ r0 :: rest, r.score = maxScoreOf (r0 :: rest) := by
      rcases listMaxInt_eq_init_or_mem r0.score ((r0 :: rest).map (·.score)) with h | h
      · exact ⟨r0, List.mem_cons_self _ _, h.symm⟩
      · obtain ⟨r, hr, hscore⟩ := List.mem_map.mp h
        exact ⟨r, hr, hscore⟩
    obtain ⟨r, hr, hscore⟩ := hmem
    intro hempty
    have : r ∈ topScoreGroup (r0 :: rest) :=
      List.mem_filter.mpr ⟨hr, by simp [hscore]⟩
    rw [hempty] at this
    exact absurd this (List.not_mem_nil r)

theorem topScoreGroup_subset {l : List ScenarioMatchResult} {r : ScenarioMatchResult}
    (hr : r ∈ topScoreGroup l) : r ∈ l :=
  List.mem_of_mem_filter hr

theorem prioOf_le_maxPrioOf (p : List (Int × Int)) {g : List ScenarioMatchResult}
    {r : ScenarioMatchResult} (hr : r ∈ g) :
    prioOf p r.version_id ≤ maxPrioOf p g := by
  cases g with
  | nil => exact absurd hr (List.not_mem_nil r)
  | cons g0 gs =>
    exact le_listMaxInt_of_mem _ (List.mem_map.mpr ⟨r, hr, rfl⟩)

theorem maxPrioOf_attained (p : List (Int × Int)) {g : List ScenarioMatchResult}
    (hg : g ≠ []) :
    ∃ r ∈ g, prioOf p r.version_id = maxPrioOf p g := by
  cases g with
  | nil => exact absurd rfl hg
  | cons g0 gs =>
    rcases listMaxInt_eq_init_or_mem (prioOf p g0.version_id)
        ((g0 :: gs).map fun r => prioOf p r.version_id) with h | h
    · exact ⟨g0, List.mem_cons_self _ _, h.symm⟩
    · obtain ⟨r, hr, hprio⟩ := List.mem_map.mp h
      exact ⟨r, hr, hprio⟩

theorem insertionSort_head_spec (p : List (Int × Int)) {g : List ScenarioMatchResult}
    {p0 : ScenarioMatchResult} {ps : List ScenarioMatchResult}
    (h : List.insertionSort (prioRel p) g = p0 :: ps) :
    (p0 :: ps).Perm g ∧ p0 ∈ g ∧
      prioOf p p0.version_id = maxPrioOf p g ∧
      List.Sorted (prioRel p) (p0 :: ps) := by
  have hperm : (p0 :: ps).Perm g := h ▸ List.perm_insertionSort (prioRel p) g
  have hsorted : List.Sorted (prioRel p) (p0 :: ps) :=
    h ▸ List.sorted_insertionSort (prioRel p) g
  have hmem : p0 ∈ g := hperm.mem_iff.mp (List.mem_cons_self _ _)
  refine ⟨hperm, hmem, le_antisymm (prioOf_le_maxPrioOf p hmem) ?_, hsorted⟩
  have hg : g ≠ [] := by
    intro hnil
    rw [hnil] at hperm
    exact absurd hperm.symm (by simp)
  obtain ⟨r, hr, hprio⟩ := maxPrioOf_attained p hg
  have hrmem : r ∈ p0 :: ps := hperm.mem_iff.mpr hr
  rcases List.mem_cons.mp hrmem with rfl | htail
  · exact le_of_eq hprio.symm
  · have := (List.sorted_cons.mp hsorted).1 r htail
    exact hprio ▸ this

theorem select_from_candidates_two (p : List (Int × Int))
    (b0 b1 : ScenarioMatchResult) (bs : List ScenarioMatchResult) :
    ∃ p0 ps, List.insertionSort (prioRel p) (b0 :: b1 :: bs) = p0 :: ps ∧
      select_from_candidates p (b0 :: b1 :: bs) =
        (if (p0 :: ps).countP
            (fun r => prioOf p r.version_id == prioOf p p0.version_id) = 1
         then Except.ok p0
         else Except.error (.ambiguity ((p0 :: ps).map fun r =>
            (r.version_id, r.version_name, prioOf p r.version_id)) msgAmbiguity)) := by
  cases hs : List.insertionSort (prioRel p) (b0 :: b1 :: bs) with
  | nil =>
    exfalso
    have hperm := List.perm_insertionSort (prioRel p) (b0 :: b1 :: bs)
    rw [hs] at hperm
    exact absurd hperm.symm (by simp)
  | cons p0 ps =>
    refine ⟨p0, ps, rfl, ?_⟩
    simp only [select_from_candidates, hs]
    by_cases hcnt : (p0 :: ps).countP
        (fun r => prioOf p r.version_id == prioOf p p0.version_id) = 1
    · simp [hcnt]
    · simp [hcnt]

end ScenarioMatcher

-- ============================================================
-- Claim C2: version tie-breaking
-- ============================================================

open ScenarioMatcher in
/-- C2 (amended): for every non-empty list of evaluated versions, selection
takes the maximum-score group; a singleton group returns its member;
otherwise the candidate with the unique highest priority is returned; an
Ambiguity error is raised if and only if the top-score group's top priority
is shared by more than one candidate — but the error carries the
`(id, name, priority)` tuples of *all* candidates of the top-score group,
sorted by descending priority (the tied top-priority ones first), not only
the tied ones. -/
theorem c2_version_tie_breaking (match_results : List ScenarioMatchResult)
    (prios : List (Int × Int)) (hne : match_results ≠ []) :
    (∀ b, topScoreGroup match_results = [b] →
        select_best_version match_results prios = .ok b)
    ∧ ((topScoreGroup match_results).countP
          (fun r => prioOf prios r.version_id ==
            maxPrioOf prios (topScoreGroup match_results)) = 1 →
        ∃ r, select_best_version match_results prios = .ok r ∧
          r ∈ topScoreGroup match_results ∧
          prioOf prios r.version_id = maxPrioOf prios (topScoreGroup match_results))
    ∧ ((∃ c m, select_best_version match_results prios = .error (.ambiguity c m)) ↔
        1 < (topScoreGroup match_results).countP
          (fun r => prioOf prios r.version_id ==
            maxPrioOf prios (topScoreGroup match_results)))
    ∧ (∀ c m, select_best_version match_results prios = .error (.ambiguity c m) →
        c.Perm ((topScoreGroup match_results).map fun r =>
          (r.version_id, r.version_name, prioOf prios r.version_id)) ∧
        List.Sorted (fun a b : Int × String × Int => b.2.2 ≤ a.2.2) c) := by
  cases match_results with
  | nil => exact absurd rfl hne
  | cons r0 rest =>
    have hsel0 : select_best_version (r0 :: rest) prios =
        select_from_candidates prios (topScoreGroup (r0 :: rest)) := rfl
    have hGne : topScoreGroup (r0 :: rest) ≠ [] :=
      topScoreGroup_ne_nil (by simp)
    cases hG : topScoreGroup (r0 :: rest) with
    | nil => exact absurd hG hGne
    | cons c0 cs =>
      cases cs with
      | nil =>
        -- singleton top-score group: its member is returned
        have hok : select_best_version (r0 :: rest) prios = .ok c0 := by
          rw [hsel0, hG]; rfl
        have hmax : maxPrioOf prios [c0] = prioOf prios c0.version_id := by
          simp [maxPrioOf, listMaxInt]
        have hcnt : ([c0].countP
            (fun r => prioOf prios r.version_id == maxPrioOf prios [c0])) = 1 := by
          simp [List.countP_cons, hmax]
        refine ⟨?_, ?_, ?_, ?_⟩
        · intro b hb
          cases hb
          exact hok
        · intro _
          exact ⟨c0, hok, List.mem_cons_self _ _, hmax.symm⟩
        · rw [hcnt]
          constructor
          · rintro ⟨c, m, hcm⟩
            rw [hok] at hcm
            exact absurd hcm (by simp)
          · intro hlt
            exact absurd hlt (by norm_num)
        · intro c m hcm
          rw [hok] at hcm
          exact absurd hcm (by simp)
      | cons c1 cs' =>
        -- two or more candidates: sort by descending priority
        obtain ⟨p0, ps, hs, hsel⟩ := select_from_candidates_two prios c0 c1 cs'
        obtain ⟨hperm, hmem, hprio, hsorted⟩ := insertionSort_head_spec prios hs
        have hsel' : select_best_version (r0 :: rest) prios =
            (if (p0 :: ps).countP
                (fun r => prioOf prios r.version_id == prioOf prios p0.version_id) = 1
             then Except.ok p0
             else Except.error (.ambiguity ((p0 :: ps).map fun r =>
                (r.version_id, r.version_name, prioOf prios r.version_id)) msgAmbiguity)) := by
          rw [hsel0, hG, hsel]
        have hcntEq : (p0 :: ps).countP
            (fun r => prioOf prios r.version_id == prioOf prios p0.version_id)
            = (c0 :: c1 :: cs').countP
              (fun r => prioOf prios r.version_id == maxPrioOf prios (c0 :: c1 :: cs')) := by
          rw [hprio]
          exact hperm.countP_eq _
        have hcntpos : 0 < (c0 :: c1 :: cs').countP
            (fun r => prioOf prios r.version_id == maxPrioOf prios (c0 :: c1 :: cs')) := by
          obtain ⟨r, hr, hrp⟩ := maxPrioOf_attained prios
            (g := c0 :: c1 :: cs') (by simp)
          exact List.countP_pos_iff.mpr ⟨r, hr, by simp [hrp]⟩
        by_cases hone : (c0 :: c1 :: cs').countP
            (fun r => prioOf prios r.version_id == maxPrioOf prios (c0 :: c1 :: cs')) = 1
        · have hok : select_best_version (r0 :: rest) prios = .ok p0 := by
            rw [hsel', if_pos (hcntEq.trans hone)]
          refine ⟨?_, ?_, ?_, ?_⟩
          · intro b hb
            exact absurd hb (by simp)
          · intro _
            exact ⟨p0, hok, hmem, hprio⟩
          · constructor
            · rintro ⟨c, m, hcm⟩
              rw [hok] at hcm
              exact absurd hcm (by simp)
            · intro hlt
              omega
          · intro c m hcm
            rw [hok] at hcm
            exact absurd hcm (by simp)
        · have hamb : select_best_version (r0 :: rest) prios =
              .error (.ambiguity ((p0 :: ps).map fun r =>
                (r.version_id, r.version_name, prioOf prios r.version_id)) msgAmbiguity) := by
            rw [hsel', if_neg (fun h => hone (hcntEq.symm.trans h))]
          refine ⟨?_, ?_, ?_, ?_⟩
          · intro b hb
            exact absurd hb (by simp)
          · intro h1
            exact absurd h1 hone
          · constructor
            · intro _
              omega
            · intro _
              exact ⟨_, _, hamb⟩
          · intro c m hcm
            rw [hamb] at hcm
            injection hcm with hcm
            injection hcm with hc hm
            subst hc
            constructor
            · exact hperm.map _
            · exact List.Pairwise.map _
                (fun a b hab => by
                  simpa using hab) hsorted

/-- Evaluated results used in the C2 counterexample: three versions with the
same score 1 and priorities 5, 5 and 2. -/
def c2cexResults : List ScenarioMatcher.ScenarioMatchResult :=
  [{ version_id := 1, version_name := "VA", score := 1,
     reason := "default_version_no_scenario", is_time_effective := true,
     matches_scenario := true },
   { version_id := 2, version_name := "VB", score := 1,
     reason := "default_version_no_scenario", is_time_effective := true,
     matches_scenario := true },
   { version_id := 3, version_name := "VC", score := 1,
     reason := "default_version_no_scenario", is_time_effective := true,
     matches_scenario := true }]

/-- Priorities used in the C2 counterexample. -/
def c2cexPrios : List (Int × Int) := [(1, 5), (2, 5), (3, 2)]

/-- C2 counterexample: three candidates share the top score with priorities
5, 5 and 2, so the top priority 5 is tied.  The raised `AmbiguityError`
carries all three `(id, name, priority)` tuples — including `(3, "VC", 2)`
whose priority 2 is not the tied top priority — not "exactly the tied
(id, name, priority) tuples" as the claim states. -/
theorem c2_counterexample :
    ScenarioMatcher.select_best_version c2cexResults c2cexPrios =
      .error (.ambiguity [(1, "VA", 5), (2, "VB", 5), (3, "VC", 2)]
        ScenarioMatcher.msgAmbiguity) ∧
    ([(1, "VA", 5), (2, "VB", 5), (3, "VC", 2)] : List (Int × String × Int)) ≠
      [(1, "VA", 5), (2, "VB", 5)] := by
  constructor
  · rfl
  · decide

/-- C2 witness: a singleton result list; its sole member is both the whole
top-score group and the selected version. -/
theorem c2_witness :
    ScenarioMatcher.select_best_version
      [{ version_id := 1, version_name := "VA", score := 1,
         reason := "default_version_no_scenario", is_time_effective := true,
         matches_scenario := true }] [] =
      .ok { version_id := 1, version_name := "VA", score := 1,
            reason := "default_version_no_scenario", is_time_effective := true,
            matches_scenario := true } :=
  (c2_version_tie_breaking _ [] (by simp)).1 _ (by rfl)

-- ============================================================
-- Claim C1: version resolution and (non-)fail-closed behaviour
-- (semantic_resolver.py : resolve_version)
-- ============================================================

/-- Errors of `SemanticResolver.resolve_version`: `VersionNotFoundError` for
an empty version set, `AmbiguityError` forwarded from selection, and
`internalError` standing for exceptions the source would only raise on
unreachable paths (`ValueError` from an empty selection input,
`StopIteration` from a failed lookup of the selected id). -/
inductive ResolveVersionError where
  | versionNotFound (msg : String)
  | ambiguity (candidates : List (Int × String × Int)) (msg : String)
  | internalError (msg : String)
  deriving Repr, DecidableEq

/-- `SemanticResolver.resolve_version` (semantic_resolver.py:87-154): load
the object's versions (here: passed in), fail with `VersionNotFoundError`
when there are none, evaluate every version with the `ScenarioMatcher`,
select the best result, and return the version whose id was selected. -/
def resolve_version (versions : List SemanticVersion) (scenario : Option Dict)
    (timestamp : Int) : Except ResolveVersionError SemanticVersion :=
  if versions.isEmpty then
    .error (.versionNotFound "No versions found for semantic object")
  else
    match ScenarioMatcher.select_best_version
        (versions.map fun v => ScenarioMatcher.evaluate_version v scenario timestamp)
        (versions.map fun v => (v.id, v.priority)) with
    | .error (.valueError m) => .error (.internalError m)
    | .error (.ambiguity c m) => .error (.ambiguity c m)
    | .ok r =>
      match versions.find? (fun v => v.id == r.version_id) with
      | some v => .ok v
      | none => .error (.internalError "StopIteration")

theorem select_best_version_ok_or_ambiguity (l : List ScenarioMatcher.ScenarioMatchResult)
    (p : List (Int × Int)) (hne : l ≠ []) :
    (∃ r, ScenarioMatcher.select_best_version l p = .ok r ∧ r ∈ l) ∨
    (∃ c m, ScenarioMatcher.select_best_version l p = .error (.ambiguity c m)) := by
  open ScenarioMatcher in
  cases l with
  | nil => exact absurd rfl hne
  | cons r0 rest =>
    have hGne : topScoreGroup (r0 :: rest) ≠ [] := topScoreGroup_ne_nil (by simp)
    cases hG : topScoreGroup (r0 :: rest) with
    | nil => exact absurd hG hGne
    | cons c0 cs =>
      cases cs with
      | nil =>
        left
        refine ⟨c0, ?_, topScoreGroup_subset (l := r0 :: rest)
          (by rw [hG]; exact List.mem_cons_self _ _)⟩
        show select_from_candidates p (topScoreGroup (r0 :: rest)) = .ok c0
        rw [hG]
        rfl
      | cons c1 cs' =>
        obtain ⟨p0, ps, hs, hsel⟩ := select_from_candidates_two p c0 c1 cs'
        obtain ⟨hperm, hmem, hprio, hsorted⟩ := insertionSort_head_spec p hs
        by_cases hcnt : (p0 :: ps).countP
            (fun r => prioOf p r.version_id == prioOf p p0.version_id) = 1
        · left
          refine ⟨p0, ?_, topScoreGroup_subset (l := r0 :: rest)
            (by rw [hG]; exact hmem)⟩
          show select_from_candidates p (topScoreGroup (r0 :: rest)) = .ok p0
          rw [hG, hsel, if_pos hcnt]
        · right
          refine ⟨(p0 :: ps).map fun r =>
            (r.version_id, r.version_name, prioOf p r.version_id), msgAmbiguity, ?_⟩
          show select_from_candidates p (topScoreGroup (r0 :: rest)) =
            Except.error (SelectError.ambiguity _ _)
          rw [hG, hsel, if_neg hcnt]

/-- C1 (amended): version selection does *not* fail closed on
time-effectiveness.  `resolve_version` fails with `VersionNotFound` only
when the version set is empty; for a non-empty set in which no version is
time-effective every candidate scores 0, and selection proceeds by the
ordinary tie-break over the score-0 group: it returns a (non-time-effective)
member of the set, or raises Ambiguity when the top priority is tied. -/
theorem c1_version_selection_not_fail_closed (versions : List SemanticVersion)
    (scenario : Option Dict) (timestamp : Int) (hne : versions ≠ [])
    (hnoeff : ∀ v ∈ versions, v.is_effective timestamp = false) :
    (∃ v, resolve_version versions scenario timestamp = .ok v ∧ v ∈ versions ∧
      v.is_effective timestamp = false) ∨
    (∃ c m, resolve_version versions scenario timestamp =
      .error (.ambiguity c m)) := by
  have hres_ne : versions.map
      (fun v => ScenarioMatcher.evaluate_version v scenario timestamp) ≠ [] := by
    simp [hne]
  have hnotempty : ¬(versions.isEmpty = true) := by
    simp [List.isEmpty_iff, hne]
  rcases select_best_version_ok_or_ambiguity _
      (versions.map fun v => (v.id, v.priority)) hres_ne with
    ⟨r, hok, hrmem⟩ | ⟨c, m, herr⟩
  · obtain ⟨v, hv, hveq⟩ := List.mem_map.mp hrmem
    have hfind : (versions.find? (fun v' => v'.id == r.version_id)).isSome := by
      rw [List.find?_isSome]
      refine ⟨v, hv, ?_⟩
      rw [← hveq]
      simp [ScenarioMatcher.evaluate_version]
    obtain ⟨v', hfind'⟩ := Option.isSome_iff_exists.mp hfind
    have hv'mem : v' ∈ versions := List.mem_of_find?_eq_some hfind'
    left
    refine ⟨v', ?_, hv'mem, hnoeff v' hv'mem⟩
    unfold resolve_version
    rw [if_neg hnotempty, hok]
    simp [hfind']
  · right
    refine ⟨c, m, ?_⟩
    unfold resolve_version
    rw [if_neg hnotempty, herr]

/-- The inactive (hence never time-effective) version of the C1
counterexample. -/
def c1cexVersion : SemanticVersion :=
  { id := 1, semantic_object_id := 1, version_name := "V_inactive",
    effective_from := 0, effective_to := none, scenario_condition := none,
    is_active := false, priority := 0 }

/-- C1 counterexample: a version set whose single version is inactive, so no
version is time-effective at timestamp 0 and every candidate scores 0 — yet
`resolve_version` returns that version instead of failing, contradicting the
claim that any returned version is time-effective at the given timestamp. -/
theorem c1_counterexample :
    resolve_version [c1cexVersion] none 0 = .ok c1cexVersion ∧
    c1cexVersion.is_effective 0 = false := by
  constructor
  · rfl
  · rfl

/-- C1 witness: the amended theorem applied to the concrete one-element,
never-effective version set of the counterexample. -/
theorem c1_witness :
    (∃ v, resolve_version [c1cexVersion] none 0 = .ok v ∧ v ∈ [c1cexVersion] ∧
      v.is_effective 0 = false) ∨
    (∃ c m, resolve_version [c1cexVersion] none 0 =
      .error (.ambiguity c m)) :=
  c1_version_selection_not_fail_closed [c1cexVersion] none 0 (by simp)
    (by intro v hv; cases List.mem_singleton.mp hv; rfl)

-- ============================================================
-- Claim C4: semantic object resolution
-- (models.py : SemanticObject, semantic_resolver.py : resolve_semantic_object)
-- ============================================================

/-- `SemanticObject` from `models.py` (the store only ever hands active
objects to the resolver). -/
structure SemanticObject where
  id : Int
  name : String
  description : String
  aliases : List String
  domain : String
  status : String := "active"
  deriving Repr, DecidableEq

/-- Python's `s.lower()`, modelled per character; the resolver only compares
the results for equality and containment. -/
def lowerChars (s : String) : List Char :=
  s.data.map Char.toLower

/-- Python's substring test `pat in s` on the character lists. -/
def charsContains (pat : List Char) : List Char → Bool
  | [] => List.isPrefixOf pat []
  | c :: rest => List.isPrefixOf pat (c :: rest) || charsContains pat rest

/-- `SemanticResolver._calculate_relevance` (semantic_resolver.py:261-289):
per keyword, +10 for an exact name match, +8 for an exact alias match, +3
for a name substring, +1 for a description substring, +2 for an alias
substring. -/
def calculate_relevance (obj : SemanticObject) (keywords : List String) : Int :=
  keywords.foldl (fun score keyword =>
    let kw := lowerChars keyword
    let score := if kw == lowerChars obj.name then score + 10 else score
    let score := if obj.aliases.any (fun a => kw == lowerChars a) then score + 8 else score
    let score := if charsContains kw (lowerChars obj.name) then score + 3 else score
    let score := if charsContains kw (lowerChars obj.description) then score + 1 else score
    let score := if obj.aliases.any (fun a => charsContains kw (lowerChars a)) then score + 2
      else score
    score) 0

/-- `SemanticResolver._search_semantic_objects` (semantic_resolver.py:245-259):
keep the active objects with positive relevance, paired with their score,
and sort by descending relevance (Python's stable `sort(reverse=True)`,
embedded as the stable `insertionSort`). -/
def search_semantic_objects (objects : List SemanticObject) (keywords : List String) :
    List SemanticObject :=
  let candidates := objects.filterMap fun obj =>
    let score := calculate_relevance obj keywords
    if score > 0 then some (score, obj) else none
  (List.insertionSort (fun a b : Int × SemanticObject => b.1 ≤ a.1) candidates).map (·.2)

/-- Errors of `SemanticResolver.resolve_semantic_object`: the source raises
a plain `ValueError("No semantic object found for: ...")` when nothing
matches (the spec's NotFound), and `AmbiguityError` with the
`(id, name, domain)` of every candidate when more than one matches. -/
inductive ResolveObjectError where
  | notFound (msg : String)
  | ambiguity (candidates : List (Int × String × String)) (msg : String)
  deriving Repr, DecidableEq

/-- `SemanticResolver.resolve_semantic_object` (semantic_resolver.py:47-85),
given the store's active objects and the extracted keywords (keyword
extraction itself mixes regexes and an optional term-dictionary lookup and
is quantified over here). -/
def resolve_semantic_object (objects : List SemanticObject) (keywords : List String) :
    Except ResolveObjectError SemanticObject :=
  match search_semantic_objects objects keywords with
  | [] => .error (.notFound "No semantic object found")
  | [c] => .ok c
  | c1 :: c2 :: rest => .error (.ambiguity
      ((c1 :: c2 :: rest).map fun c => (c.id, c.name, c.domain))
      "Multiple semantic objects matched. Please clarify.")

theorem map_snd_relevance_filterMap (objects : List SemanticObject) (keywords : List String) :
    ((objects.filterMap fun obj =>
        let score := calculate_relevance obj keywords
        if score > 0 then some (score, obj) else none).map (·.2))
      = objects.filter (fun o => 0 < calculate_relevance o keywords) := by
  induction objects with
  | nil => rfl
  | cons o os ih =>
    by_cases h : calculate_relevance o keywords > 0
    · simp only [List.filterMap_cons, List.filter_cons]
      rw [if_pos h]
      simpa [h] using ih
    · simp only [List.filterMap_cons, List.filter_cons]
      rw [if_neg h]
      simpa [h] using ih

theorem search_semantic_objects_perm (objects : List SemanticObject)
    (keywords : List String) :
    (search_semantic_objects objects keywords).Perm
      (objects.filter fun o => 0 < calculate_relevance o keywords) := by
  simp only [search_semantic_objects]
  have h1 := (List.perm_insertionSort (fun a b : Int × SemanticObject => b.1 ≤ a.1)
      (objects.filterMap fun obj =>
        let score := calculate_relevance obj keywords
        if score > 0 then some (score, obj) else none)).map (·.2)
  rw [map_snd_relevance_filterMap] at h1
  exact h1

/-- C4: object resolution fails on any second candidate.  With exactly one
active object of positive relevance, that object is returned; with two or
more, resolution fails with Ambiguity carrying (a permutation of) all
positive-relevance candidates; with none, it fails with the not-found error
(a bare `ValueError` in the source). -/
theorem c4_object_resolution (objects : List SemanticObject) (keywords : List String) :
    ((objects.filter fun o => 0 < calculate_relevance o keywords) = [] →
      ∃ m, resolve_semantic_object objects keywords = .error (.notFound m))
    ∧ (∀ o, (objects.filter fun o => 0 < calculate_relevance o keywords) = [o] →
        resolve_semantic_object objects keywords = .ok o)
    ∧ (2 ≤ (objects.filter fun o => 0 < calculate_relevance o keywords).length →
        ∃ c m, resolve_semantic_object objects keywords = .error (.ambiguity c m) ∧
          c.Perm ((objects.filter fun o => 0 < calculate_relevance o keywords).map
            fun o => (o.id, o.name, o.domain))) := by
  have hperm := search_semantic_objects_perm objects keywords
  cases hS : search_semantic_objects objects keywords with
  | nil =>
    rw [hS] at hperm
    have hpos : (objects.filter fun o => 0 < calculate_relevance o keywords) = [] :=
      hperm.symm.eq_nil
    refine ⟨fun _ => ⟨"No semantic object found", ?_⟩, fun o ho => ?_, fun hlen => ?_⟩
    · unfold resolve_semantic_object
      rw [hS]
    · rw [hpos] at ho
      exact absurd ho (by simp)
    · rw [hpos] at hlen
      simp at hlen
  | cons c1 cs =>
    cases cs with
    | nil =>
      rw [hS] at hperm
      have hpos : (objects.filter fun o => 0 < calculate_relevance o keywords) = [c1] :=
        (List.perm_singleton.mp hperm.symm)
      refine ⟨fun hnil => ?_, fun o ho => ?_, fun hlen => ?_⟩
      · rw [hpos] at hnil
        exact absurd hnil (by simp)
      · rw [hpos] at ho
        cases ho
        unfold resolve_semantic_object
        rw [hS]
      · rw [hpos] at hlen
        simp at hlen
    | cons c2 rest =>
      rw [hS] at hperm
      have hlen2 : 2 ≤ (objects.filter fun o => 0 < calculate_relevance o keywords).length := by
        rw [← hperm.length_eq]
        simp
      refine ⟨fun hnil => ?_, fun o ho => ?_, fun _ => ?_⟩
      · rw [hnil] at hlen2
        simp at hlen2
      · rw [ho] at hlen2
        simp at hlen2
      · refine ⟨(c1 :: c2 :: rest).map fun c => (c.id, c.name, c.domain),
          "Multiple semantic objects matched. Please clarify.", ?_, hperm.map _⟩
        unfold resolve_semantic_object
        rw [hS]

/-- Objects used by the C4 witness: one matching metric and one unrelated
metric. -/
def c4wObjects : List SemanticObject :=
  [{ id := 1, name := "FPY", description := "First pass yield",
     aliases := ["first pass yield"], domain := "quality" },
   { id := 2, name := "Output", description := "Production output quantity",
     aliases := ["production volume"], domain := "production" }]

/-- C4 witness: with keywords `["fpy"]` exactly one object has positive
relevance, and resolution returns it. -/
theorem c4_witness :
    resolve_semantic_object c4wObjects ["fpy"] =
      .ok { id := 1, name := "FPY", description := "First pass yield",
            aliases := ["first pass yield"], domain := "quality" } :=
  (c4_object_resolution c4wObjects ["fpy"]).2.1 _ (by decide)

-- ============================================================
-- Claim C5: policy engine (policy_engine.py)
-- ============================================================

/-- A policy's effect; `access_policy.effect` is `'allow'` or `'deny'`
(models.py:405). -/
inductive Effect where
  | allow
  | deny
  deriving Repr, DecidableEq

/-- `AccessPolicy` from `models.py`. -/
structure AccessPolicy where
  id : Int
  semantic_object_id : Int
  role : String
  action : String
  condition : Option Dict
  effect : Effect
  priority : Int
  deriving Repr, DecidableEq

/-- `PolicyEngine._matches_condition` (policy_engine.py:150-172): a policy
with no (or an empty) condition always matches; with a condition but no (or
an empty) context it does not; otherwise every condition key/value pair must
be present in the context. -/
def matches_condition (policy : AccessPolicy) (context : Option Dict) : Bool :=
  if !dictTruthy policy.condition then true
  else if !dictTruthy context then false
  else (policy.condition.getD []).all fun kv =>
    match dictGet (context.getD []) kv.1 with
    | none => false
    | some v => v == kv.2

/-- The decision reasons produced by the policy engine, standing for the
source's reason strings. -/
inductive DecisionReason where
  | noPoliciesDefault
  | deniedByPolicy (id : Int)
  | allowedBy (count : Nat)
  | noMatchingAllowDefault
  deriving Repr, DecidableEq

/-- The decision dict returned by `check_access` / `_evaluate_policies`:
`{allow, reason, policies}`. -/
structure Decision where
  allow : Bool
  reason : DecisionReason
  policies : List AccessPolicy
  deriving Repr, DecidableEq

/-- The loop of `PolicyEngine._evaluate_policies` (policy_engine.py:119-148)
with its `matched_policies` accumulator: each matching policy is appended;
the first matching deny returns immediately; after the loop, access is
granted when some policy matched and all matched policies are allow,
otherwise denied by default. -/
def evaluate_policies_go (context : Option Dict) :
    List AccessPolicy → List AccessPolicy → Decision
  | [], matched =>
    if !matched.isEmpty && matched.all (fun p => p.effect == Effect.allow) then
      { allow := true, reason := .allowedBy matched.length, policies := matched }
    else
      { allow := false, reason := .noMatchingAllowDefault, policies := matched }
  | p :: rest, matched =>
    if matches_condition p context then
      if p.effect == Effect.deny then
        { allow := false, reason := .deniedByPolicy p.id, policies := matched ++ [p] }
      else evaluate_policies_go context rest (matched ++ [p])
    else evaluate_policies_go context rest matched

/-- `PolicyEngine._evaluate_policies` (policy_engine.py:104-148).  The input
list is the store's applicable policies, already ordered by descending
priority. -/
def evaluate_policies (policies : List AccessPolicy) (context : Option Dict) : Decision :=
  evaluate_policies_go context policies []

/-- `PolicyEngine.check_access` (policy_engine.py:40-90): zero retrieved
policies default-deny; otherwise the policies are evaluated in order, and a
non-allow decision raises `PolicyDeniedError` carrying the reason. -/
def check_access (policies : List AccessPolicy) (context : Option Dict) :
    Except DecisionReason Decision :=
  let decision :=
    if policies.isEmpty then
      { allow := false, reason := .noPoliciesDefault, policies := [] }
    else evaluate_policies policies context
  if !decision.allow then .error decision.reason else .ok decision

theorem evaluate_policies_go_deny (context : Option Dict)
    (ps : List AccessPolicy) (matched : List AccessPolicy) (p : AccessPolicy)
    (h : ps.find? (fun q => matches_condition q context && (q.effect == Effect.deny))
      = some p) :
    ∃ mp, evaluate_policies_go context ps matched =
      { allow := false, reason := .deniedByPolicy p.id, policies := mp } := by
  induction ps generalizing matched with
  | nil => simp at h
  | cons q rest ih =>
    rw [List.find?_cons] at h
    cases hD : (matches_condition q context && (q.effect == Effect.deny)) with
    | true =>
      simp only [hD] at h
      injection h with h
      subst h
      have hand := Bool.and_eq_true_iff.mp hD
      exact ⟨matched ++ [q], by simp [evaluate_policies_go, hand.1, hand.2]⟩
    | false =>
      simp only [hD] at h
      by_cases hF : matches_condition q context = true
      · have hE : (q.effect == Effect.deny) = false := by
          cases he : (q.effect == Effect.deny)
          · rfl
          · rw [hF, he] at hD
            simp at hD
        obtain ⟨mp, hmp⟩ := ih (matched ++ [q]) h
        exact ⟨mp, by simp [evaluate_policies_go, hF, hE, hmp]⟩
      · have hF' : matches_condition q context = false := by
          cases hc : matches_condition q context
          · rfl
          · exact absurd hc hF
        obtain ⟨mp, hmp⟩ := ih matched h
        exact ⟨mp, by simp [evaluate_policies_go, hF', hmp]⟩

theorem evaluate_policies_go_no_deny (context : Option Dict)
    (ps : List AccessPolicy) (matched : List AccessPolicy)
    (h : ps.find? (fun q => matches_condition q context && (q.effect == Effect.deny))
      = none)
    (hmA : ∀ q ∈ matched, q.effect = Effect.allow) :
    evaluate_policies_go context ps matched =
      (if (matched ++ ps.filter (fun q => matches_condition q context)).isEmpty then
        { allow := false, reason := .noMatchingAllowDefault,
          policies := matched ++ ps.filter (fun q => matches_condition q context) }
       else
        { allow := true,
          reason := .allowedBy
            (matched ++ ps.filter (fun q => matches_condition q context)).length,
          policies := matched ++ ps.filter (fun q => matches_condition q context) }) := by
  induction ps generalizing matched with
  | nil =>
    simp only [evaluate_policies_go, List.filter_nil, List.append_nil]
    cases hm : matched with
    | nil => simp
    | cons m ms =>
      have hall : matched.all (fun p => p.effect == Effect.allow) = true := by
        rw [List.all_eq_true]
        intro q hq
        simp [hmA q hq]
      rw [hm] at hall
      simp [hall]
  | cons q rest ih =>
    rw [List.find?_cons] at h
    cases hD : (matches_condition q context && (q.effect == Effect.deny)) with
    | true =>
      simp only [hD] at h
      exact absurd h (by simp)
    | false =>
      simp only [hD] at h
      by_cases hF : matches_condition q context = true
      · have hE : q.effect = Effect.allow := by
          cases he : q.effect
          · rfl
          · rw [hF, he] at hD
            simp at hD
        have hbeq : (q.effect == Effect.deny) = false := by simp [hE]
        have hmA' : ∀ r ∈ matched ++ [q], r.effect = Effect.allow := by
          intro r hr
          rcases List.mem_append.mp hr with hr | hr
          · exact hmA r hr
          · rw [List.mem_singleton.mp hr]
            exact hE
        have hstep : evaluate_policies_go context (q :: rest) matched
            = evaluate_policies_go context rest (matched ++ [q]) := by
          simp [evaluate_policies_go, hF, hbeq]
        rw [hstep, ih (matched ++ [q]) h hmA']
        simp [List.filter_cons, hF, List.append_assoc]
      · have hF' : matches_condition q context = false := by
          cases hc : matches_condition q context
          · rfl
          · exact absurd hc hF
        have hstep : evaluate_policies_go context (q :: rest) matched
            = evaluate_policies_go context rest matched := by
          simp [evaluate_policies_go, hF']
        rw [hstep, ih matched h hmA]
        simp [List.filter_cons, hF']

/-- C5: policy evaluation is deny-precedent and default-deny.  `check_access`
raises (returns an error, carrying the denial reason) iff no retrieved
policy's condition matches the context — including zero retrieved policies —
or some matching policy, taken in the given descending-priority order, has
effect deny; the first matching deny short-circuits with that policy cited;
access is granted exactly when at least one policy matches and every
matching policy is allow. -/
theorem c5_policy_deny_precedence (policies : List AccessPolicy) (context : Option Dict) :
    ((∃ r, check_access policies context = .error r) ↔
      (policies.filter (fun p => matches_condition p context) = [] ∨
        ∃ p ∈ policies.filter (fun p => matches_condition p context),
          p.effect = Effect.deny))
    ∧ ((∃ d, check_access policies context = .ok d) ↔
        (policies.filter (fun p => matches_condition p context) ≠ [] ∧
          ∀ p ∈ policies.filter (fun p => matches_condition p context),
            p.effect = Effect.allow))
    ∧ (∀ p, policies.find?
          (fun q => matches_condition q context && (q.effect == Effect.deny)) = some p →
        check_access policies context = .error (.deniedByPolicy p.id)) := by
  cases hps : policies with
  | nil =>
    refine ⟨?_, ?_, ?_⟩
    · simp [check_access]
    · simp [check_access]
    · intro p hp
      simp at hp
  | cons q0 qs =>
    have hsel : check_access (q0 :: qs) context =
        (if !(evaluate_policies (q0 :: qs) context).allow then
          Except.error (evaluate_policies (q0 :: qs) context).reason
         else Except.ok (evaluate_policies (q0 :: qs) context)) := by
      simp [check_access]
    cases hfind : (q0 :: qs).find?
        (fun q => matches_condition q context && (q.effect == Effect.deny)) with
    | some p =>
      obtain ⟨mp, hmp⟩ := evaluate_policies_go_deny context (q0 :: qs) [] p hfind
      have heval : evaluate_policies (q0 :: qs) context =
          { allow := false, reason := .deniedByPolicy p.id, policies := mp } := hmp
      have herr : check_access (q0 :: qs) context =
          Except.error (.deniedByPolicy p.id) := by
        rw [hsel, heval]
        rfl
      have hpmem : p ∈ (q0 :: qs).filter (fun r => matches_condition r context) := by
        refine List.mem_filter.mpr ⟨List.mem_of_find?_eq_some hfind, ?_⟩
        have := List.find?_some hfind
        exact (Bool.and_eq_true_iff.mp this).1
      have hpdeny : p.effect = Effect.deny := by
        have := List.find?_some hfind
        have h2 := (Bool.and_eq_true_iff.mp this).2
        exact beq_iff_eq.mp h2
      refine ⟨?_, ?_, ?_⟩
      · constructor
        · intro _
          exact Or.inr ⟨p, hpmem, hpdeny⟩
        · intro _
          exact ⟨_, herr⟩
      · constructor
        · rintro ⟨d, hd⟩
          rw [herr] at hd
          exact absurd hd (by simp)
        · rintro ⟨_, hall⟩
          exact absurd (hall p hpmem) (by simp [hpdeny])
      · intro p' hp'
        injection hp' with hp'
        subst hp'
        exact herr
    | none =>
      have hnd : ∀ r ∈ (q0 :: qs).filter (fun r => matches_condition r context),
          r.effect = Effect.allow := by
        intro r hr
        obtain ⟨hrmem, hrF⟩ := List.mem_filter.mp hr
        have := List.find?_eq_none.mp hfind r hrmem
        cases he : r.effect
        · rfl
        · exact absurd (by rw [hrF]; simp [he]) this
      have heval := evaluate_policies_go_no_deny context (q0 :: qs) [] hfind
        (by intro q hq; simp at hq)
      rw [List.nil_append] at heval
      cases hflt : (q0 :: qs).filter (fun r => matches_condition r context) with
      | nil =>
        rw [hflt] at heval
        simp at heval
        have herr : check_access (q0 :: qs) context =
            Except.error .noMatchingAllowDefault := by
          have heval' : evaluate_policies (q0 :: qs) context =
              { allow := false, reason := .noMatchingAllowDefault,
                policies := [] } := heval
          rw [hsel, heval']
          rfl
        refine ⟨?_, ?_, ?_⟩
        · constructor
          · intro _
            exact Or.inl rfl
          · intro _
            exact ⟨_, herr⟩
        · constructor
          · rintro ⟨d, hd⟩
            rw [herr] at hd
            exact absurd hd (by simp)
          · rintro ⟨hne, _⟩
            exact absurd rfl hne
        · intro p hp
          exact absurd hp (by simp)
      | cons f0 fs =>
        rw [hflt] at heval
        simp only [List.isEmpty_cons, Bool.false_eq_true, if_false] at heval
        have hok : check_access (q0 :: qs) context =
            Except.ok { allow := true,
                        reason := .allowedBy ((f0 :: fs).length),
                        policies := f0 :: fs } := by
          have heval' : evaluate_policies (q0 :: qs) context =
              { allow := true, reason := .allowedBy ((f0 :: fs).length),
                policies := f0 :: fs } := heval
          rw [hsel, heval']
          rfl
        refine ⟨?_, ?_, ?_⟩
        · constructor
          · rintro ⟨r, hr⟩
            rw [hok] at hr
            exact absurd hr (by simp)
          · rintro (hnil | ⟨p, hpmem, hpdeny⟩)
            · exact absurd hnil (by simp)
            · exact absurd (hnd p (hflt ▸ hpmem)) (by simp [hpdeny])
        · constructor
          · intro _
            exact ⟨by simp, fun p hp => hnd p (hflt ▸ hp)⟩
          · intro _
            exact ⟨_, hok⟩
        · intro p hp
          exact absurd hp (by simp)

/-- C5 witness: a single unconditional allow policy for role `operator`
grants access; the theorem's granted-access characterization applied at that
concrete input. -/
theorem c5_witness :
    ∃ d, check_access
      [{ id := 1, semantic_object_id := 1, role := "operator", action := "query",
         condition := none, effect := Effect.allow, priority := 0 }] none = .ok d :=
  (c5_policy_deny_precedence
    [{ id := 1, semantic_object_id := 1, role := "operator", action := "query",
       condition := none, effect := Effect.allow, priority := 0 }] none).2.1.mpr
    ⟨by decide, by decide⟩

-- ============================================================
-- Claims C6 and C7: execution engine (execution_engine.py)
-- ============================================================

/-- A parsed SQL template: the Jinja2 template string of a mapping, split
into literal chunks and `{{ variable }}` slots. -/
inductive TemplatePart where
  | lit (s : String)
  | slot (name : String)
  deriving Repr, DecidableEq

/-- `PhysicalMapping` from `models.py` (the `sql_template` string is carried
in parsed form). -/
structure PhysicalMapping where
  id : Int
  logical_definition_id : Int
  engine_type : String
  connection_ref : String
  sql_template : List TemplatePart
  params_schema : Dict
  priority : Int
  deriving Repr, DecidableEq

/-- Jinja2's `Template(mapping.sql_template).render(**parameters)` for
variable-substitution templates: literals are copied and each slot is
replaced by its parameter value (Jinja2 renders an undefined variable as the
empty string). -/
def render_template (template : List TemplatePart) (parameters : Dict) : String :=
  template.foldl (fun acc part =>
    acc ++ match part with
      | .lit s => s
      | .slot n => (dictGet parameters n).getD "") ""

/-- `ExecutionEngine.render_sql` (execution_engine.py:128-177): when the
mapping's parameter schema is non-empty, collect every schema key absent
from the parameters; any missing key raises `ValueError` naming all missing
keys, before any template rendering; otherwise the template is rendered. -/
def render_sql (mapping : PhysicalMapping) (parameters : Dict) :
    Except (List String) String :=
  let missing_params :=
    if !mapping.params_schema.isEmpty then
      (mapping.params_schema.map (·.1)).filter
        (fun n => !(parameters.any (fun kv => kv.1 == n)))
    else []
  if !missing_params.isEmpty then .error missing_params
  else .ok (render_template mapping.sql_template parameters)

theorem any_key_iff_mem (parameters : Dict) (n : String) :
    (parameters.any fun kv => kv.1 == n) = true ↔ n ∈ parameters.map (·.1) := by
  simp [List.any_eq_true, List.mem_map]

/-- C6: render validates before substituting.  If any key of the mapping's
parameter schema is absent from the parameters, `render_sql` fails with a
validation error naming exactly the missing schema keys (all of them, in
schema order) and no rendered query; if every schema key is present, the
template is rendered with the parameters and returned. -/
theorem c6_render_validation (mapping : PhysicalMapping) (parameters : Dict) :
    ((∀ k ∈ mapping.params_schema.map (·.1), k ∈ parameters.map (·.1)) →
      render_sql mapping parameters =
        .ok (render_template mapping.sql_template parameters))
    ∧ ((∃ k ∈ mapping.params_schema.map (·.1), k ∉ parameters.map (·.1)) →
        render_sql mapping parameters =
          .error ((mapping.params_schema.map (·.1)).filter
            (fun k => k ∉ parameters.map (·.1))))
    ∧ (∀ ms, render_sql mapping parameters = .error ms → ms ≠ []) := by
  have hfeq : ∀ l : List String,
      l.filter (fun n => !(parameters.any (fun kv => kv.1 == n)))
        = l.filter (fun k => k ∉ parameters.map (·.1)) := by
    intro l
    apply List.filter_congr
    intro k _
    by_cases hm : k ∈ parameters.map (·.1)
    · have h1 : (parameters.any fun kv => kv.1 == k) = true :=
        (any_key_iff_mem parameters k).mpr hm
      simp [h1, hm]
    · have h1 : (parameters.any fun kv => kv.1 == k) = false := by
        cases ha : (parameters.any fun kv => kv.1 == k)
        · rfl
        · exact absurd ((any_key_iff_mem parameters k).mp ha) hm
      simp [h1, hm]
  have hM : (if !mapping.params_schema.isEmpty then
        (mapping.params_schema.map (·.1)).filter
          (fun n => !(parameters.any (fun kv => kv.1 == n)))
      else [])
      = (mapping.params_schema.map (·.1)).filter
          (fun k => k ∉ parameters.map (·.1)) := by
    cases hs : mapping.params_schema with
    | nil => simp
    | cons a l =>
      rw [if_pos (by simp)]
      exact hfeq _
  have hbody : render_sql mapping parameters =
      (if !((mapping.params_schema.map (·.1)).filter
          (fun k => k ∉ parameters.map (·.1))).isEmpty then
        Except.error ((mapping.params_schema.map (·.1)).filter
          (fun k => k ∉ parameters.map (·.1)))
      else Except.ok (render_template mapping.sql_template parameters)) := by
    unfold render_sql
    rw [hM]
  refine ⟨?_, ?_, ?_⟩
  · intro hall
    have hnil : (mapping.params_schema.map (·.1)).filter
        (fun k => k ∉ parameters.map (·.1)) = [] := by
      rw [List.filter_eq_nil_iff]
      intro k hk
      simp [hall k hk]
    rw [hbody, hnil]
    rfl
  · rintro ⟨k, hk, hkabs⟩
    have hne : (mapping.params_schema.map (·.1)).filter
        (fun k => k ∉ parameters.map (·.1)) ≠ [] := by
      intro hnil
      have : k ∈ (mapping.params_schema.map (·.1)).filter
          (fun k => k ∉ parameters.map (·.1)) :=
        List.mem_filter.mpr ⟨hk, by simp [hkabs]⟩
      rw [hnil] at this
      exact absurd this (List.not_mem_nil k)
    have hie : ((mapping.params_schema.map (·.1)).filter
        (fun k => k ∉ parameters.map (·.1))).isEmpty = false := by
      cases hval : (mapping.params_schema.map (·.1)).filter
          (fun k => k ∉ parameters.map (·.1)) with
      | nil => exact absurd hval hne
      | cons x xs => rfl
    rw [hbody, if_pos (by rw [hie]; rfl)]
  · intro ms hms
    rw [hbody] at hms
    cases hie : ((mapping.params_schema.map (·.1)).filter
        (fun k => k ∉ parameters.map (·.1))).isEmpty with
    | true =>
      rw [if_neg (by rw [hie]; decide)] at hms
      exact absurd hms (by simp)
    | false =>
      rw [if_pos (by rw [hie]; rfl)] at hms
      injection hms with hms
      subst hms
      intro hnil
      rw [hnil] at hie
      exact absurd hie (by decide)

/-- C6 witness: the spec's missing-parameter example — a mapping requiring
`line`, `start_date` and `end_date` called with only `line` fails naming the
two missing keys; called with all three it renders. -/
theorem c6_witness :
    render_sql
      { id := 1, logical_definition_id := 1, engine_type := "sqlite",
        connection_ref := "default",
        sql_template := [.lit "SELECT * FROM fpy WHERE line = ", .slot "line"],
        params_schema := [("line", "string"), ("start_date", "date"),
          ("end_date", "date")],
        priority := 1 }
      [("line", "SMT-1")] = .error ["start_date", "end_date"] :=
  (c6_render_validation
    { id := 1, logical_definition_id := 1, engine_type := "sqlite",
      connection_ref := "default",
      sql_template := [.lit "SELECT * FROM fpy WHERE line = ", .slot "line"],
      params_schema := [("line", "string"), ("start_date", "date"),
        ("end_date", "date")],
      priority := 1 }
    [("line", "SMT-1")]).2.1 ⟨"start_date", by decide, by decide⟩

/-- A result row, as the query executor returns it (a dict per row). -/
abbrev Row := Dict

/-- `ExecutionResult` (execution_engine.py:20-47), with the constructor's
defaulting: absent data is the empty list, and an absent row count defaults
to the length of the data (0 when there is none). -/
structure ExecutionResult where
  success : Bool
  data : List Row
  row_count : Nat
  sql : Option String
  execution_time_ms : Option Int
  error : Option String
  deriving Repr, DecidableEq

namespace ExecutionEngine

/-- `ExecutionEngine.resolve_physical_mapping` (execution_engine.py:90-126):
the store returns the mappings for the logical definition (filtered by
engine type, ordered by descending priority); none raises
`MappingNotFoundError`, otherwise the first is selected. -/
def resolve_physical_mapping (mappings : List PhysicalMapping) :
    Except String PhysicalMapping :=
  match mappings with
  | [] => .error "No physical mapping found"
  | m :: _ => .ok m

/-- `ExecutionEngine.execute` (execution_engine.py:179-234): the single
downstream call to the query executor either returns rows or raises; the
`try/except` converts both into an `ExecutionResult`, so `execute` is total
(never raises) — a raised exception becomes `success := false` with its
message in `error`; the measured latency is recorded either way.  The
executor's outcome and the measured latency are explicit arguments here
(they are I/O in the source). -/
def execute (sql : Option String) (connection_ref : Option String)
    (parameters : Option Dict) (outcome : Except String (List Row))
    (elapsed_ms : Int) : ExecutionResult :=
  match outcome with
  | .ok data =>
    { success := true, data := data, row_count := data.length, sql := sql,
      execution_time_ms := some elapsed_ms, error := none }
  | .error e =>
    { success := false, data := [], row_count := 0, sql := sql,
      execution_time_ms := some elapsed_ms, error := some e }

end ExecutionEngine

/-- C7: execute never raises for downstream failures.  `execute` returns an
`ExecutionResult` for every executor outcome (it is a total function of the
outcome); when the executor raises `e`, the result has `success = false`,
the error message captured, and the measured latency — and when the executor
returns rows, the result is successful with no error. -/
theorem c7_execute_captures_failures (sql : Option String)
    (connection_ref : Option String) (parameters : Option Dict)
    (elapsed_ms : Int) :
    (∀ e, ExecutionEngine.execute sql connection_ref parameters
        (.error e) elapsed_ms =
      { success := false, data := [], row_count := 0, sql := sql,
        execution_time_ms := some elapsed_ms, error := some e })
    ∧ (∀ data, (ExecutionEngine.execute sql connection_ref parameters
        (.ok data) elapsed_ms).success = true ∧
        (ExecutionEngine.execute sql connection_ref parameters
          (.ok data) elapsed_ms).error = none ∧
        (ExecutionEngine.execute sql connection_ref parameters
          (.ok data) elapsed_ms).row_count = data.length) :=
  ⟨fun _ => rfl, fun _ => ⟨rfl, rfl, rfl⟩⟩

-- ============================================================
-- Claims C8 and C10: orchestrator (orchestrator.py), audit rows
-- (models.py : ExecutionAudit, sqlite_stores.py : save_denied)
-- ============================================================

/-- `LogicalDefinition` from `models.py`; the source's `variables` field is
`variables_list` here (`variables` is reserved in Lean). -/
structure LogicalDefinition where
  id : Int
  semantic_version_id : Int
  expression : String
  grain : Option String
  variables_list : List String
  deriving Repr, DecidableEq

/-- One `{step, timestamp, data}` entry of a decision trace
(orchestrator.py:133-137).  The `data` payloads are reduced to the key/value
pairs the claims inspect (stringified); entries and their order are kept. -/
structure TraceEntry where
  step : String
  timestamp : Int
  data : Dict
  deriving Repr, DecidableEq

/-- `ExecutionContext` from `models.py`. -/
structure ExecutionContext where
  user_id : Int
  role : String
  parameters : Dict
  timestamp : Int
  deriving Repr, DecidableEq

/-- `ExecutionAudit` from `models.py`.  `policy_decision` (a JSON string in
the source) is carried as its `(allow, policy_count)` content; the
`execution_context` column, a serialized copy of user id/role/parameters, is
not repeated here. -/
structure ExecutionAudit where
  id : Int
  audit_id : String
  question : String
  semantic_object_id : Option Int
  semantic_object_name : Option String
  version_id : Option Int
  version_name : Option String
  logical_definition_id : Option Int
  logical_expression : Option String
  physical_mapping_id : Option Int
  connection_ref : Option String
  final_sql : Option String
  decision_trace : List TraceEntry
  request_params : Option Dict
  user_id : Option Int
  user_role : Option String
  policy_decision : Option (Bool × Nat)
  executed_at : Option Int
  status : String
  row_count : Option Nat
  execution_time_ms : Option Int
  error_message : Option String
  deriving Repr, DecidableEq

/-- `SemanticOrchestrator._create_audit_record` (orchestrator.py:549-597):
snapshot of every resolved id/name, the final SQL, the trace, the caller,
the serialized policy decision, and the execution outcome. -/
def create_audit_record (audit_id question : String) (semantic_obj : SemanticObject)
    (version : SemanticVersion) (logical_def : LogicalDefinition)
    (physical_mapping : PhysicalMapping) (sql : String)
    (decision_trace : List TraceEntry) (context : ExecutionContext)
    (policy_decision : Bool × Nat) (execution_result : ExecutionResult)
    (status : String) (now : Int) : ExecutionAudit :=
  { id := 0
    audit_id := audit_id
    question := question
    semantic_object_id := some semantic_obj.id
    semantic_object_name := some semantic_obj.name
    version_id := some version.id
    version_name := some version.version_name
    logical_definition_id := some logical_def.id
    logical_expression := some logical_def.expression
    physical_mapping_id := some physical_mapping.id
    connection_ref := some physical_mapping.connection_ref
    final_sql := some sql
    decision_trace := decision_trace
    request_params := if context.parameters.isEmpty then none else some context.parameters
    user_id := some context.user_id
    user_role := some context.role
    policy_decision := some policy_decision
    executed_at := some now
    status := status
    row_count := some execution_result.row_count
    execution_time_ms := execution_result.execution_time_ms
    error_message := execution_result.error }

/-- `SQLiteAuditStore.save_denied` (sqlite_stores.py:385-414): the audit row
written for a denied or failed call — only question, partially resolved
object, trace, caller and error are populated, and the status is always the
literal `'denied'`. -/
def save_denied_audit (audit_id question : String)
    (semantic_obj : Option SemanticObject) (decision_trace : List TraceEntry)
    (context : ExecutionContext) (error : String) : ExecutionAudit :=
  { id := 0
    audit_id := audit_id
    question := question
    semantic_object_id := semantic_obj.map (·.id)
    semantic_object_name := semantic_obj.map (·.name)
    version_id := none
    version_name := none
    logical_definition_id := none
    logical_expression := none
    physical_mapping_id := none
    connection_ref := none
    final_sql := none
    decision_trace := decision_trace
    request_params := if context.parameters.isEmpty then none else some context.parameters
    user_id := some context.user_id
    user_role := some context.role
    policy_decision := none
    executed_at := some context.timestamp
    status := "denied"
    row_count := none
    execution_time_ms := none
    error_message := some error }

/-- The grain validator's verdict (`grain_validator.py` is an external
collaborator to the core; the orchestrator only reads `status`, `reason` and
`suggestions`). -/
structure GrainValidation where
  status : String
  reason : String
  suggestions : Dict
  deriving Repr, DecidableEq

/-- The read-only collaborators the orchestrator is wired to: the metadata
store views consumed by the resolver and the execution engine, the keyword
extractor (regex plus optional term-dictionary I/O), the grain validator
and the policy store. -/
structure SemanticCollaborators where
  objects : List SemanticObject
  extractKeywords : String → List String
  getVersions : Int → List SemanticVersion
  getLogicalDefinition : Int → Option LogicalDefinition
  grainValidate : Int → Dict → String → GrainValidation
  getPhysicalMappings : Int → String → List PhysicalMapping
  getPolicies : Int → String → String → List AccessPolicy

/-- `SQLiteAuditStore.load_audit`: the stored audit row with the given id. -/
def load_audit (audits : List ExecutionAudit) (audit_id : String) :
    Option ExecutionAudit :=
  audits.find? (fun a => a.audit_id == audit_id)

/-- The outcome of `SemanticOrchestrator.replay`: the `ValueError` raised for
an unknown audit id, the structured `{error, original_audit}` return for a
non-success original, or the replay response. -/
inductive ReplayOutcome where
  | auditMissing (msg : String)
  | cannotReplay (error : String) (original : ExecutionAudit)
  | replayed (original_audit_id new_audit_id : String)
      (newAudit : ExecutionAudit) (result : ExecutionResult)
  deriving Repr, DecidableEq

/-- The two opening entries of the replay decision trace
(orchestrator.py:441-462), marking replay mode and the source audit id. -/
def replay_trace (original : ExecutionAudit) (audit_id : String) (now : Int) :
    List TraceEntry :=
  [{ step := "replay_start", timestamp := now,
     data := [("replay_mode", "True"), ("replay_source_audit_id", audit_id)] },
   { step := "replay_execution_start", timestamp := now,
     data := [("sql", original.final_sql.getD ""),
              ("connection_ref", original.connection_ref.getD "")] }]

/-- The replay audit row (orchestrator.py:481-495): `_create_audit_record`
applied to stub objects rebuilt from the original audit's snapshots (Python
`x or default` on the nullable columns), the original final SQL, the replay
trace, a context rebuilt from the original caller, a pre-authorized policy
decision, and the replay execution's result. -/
def replay_new_audit (original : ExecutionAudit) (audit_id new_audit_id : String)
    (outcome : Except String (List Row)) (elapsed_ms now : Int) : ExecutionAudit :=
  let execution_result := ExecutionEngine.execute original.final_sql
    original.connection_ref none outcome elapsed_ms
  create_audit_record new_audit_id original.question
    { id := original.semantic_object_id.getD 0,
      name := original.semantic_object_name.getD "", description := "",
      aliases := [], domain := "", status := "" }
    { id := original.version_id.getD 0, semantic_object_id := 0,
      version_name := original.version_name.getD "", effective_from := now,
      effective_to := none, scenario_condition := none, is_active := true,
      priority := 0 }
    { id := original.logical_definition_id.getD 0, semantic_version_id := 0,
      expression := original.logical_expression.getD "", grain := some "",
      variables_list := [] }
    { id := original.physical_mapping_id.getD 0, logical_definition_id := 0,
      engine_type := "", connection_ref := original.connection_ref.getD "",
      sql_template := [], params_schema := [], priority := 0 }
    (original.final_sql.getD "")
    (replay_trace original audit_id now ++
      [{ step := "replay_execution_complete", timestamp := now, data := [] }])
    { user_id := original.user_id.getD 0, role := original.user_role.getD "unknown",
      parameters := [], timestamp := now }
    (true, 0)
    execution_result
    (if execution_result.success then "success" else "error") now

/-- `SemanticOrchestrator.replay` (orchestrator.py:403-518): load the
original audit (unknown id raises); refuse with a structured error unless
its status is `success`; otherwise execute exactly the stored final SQL
against the stored connection reference — the collaborators (resolver,
scenario matcher, policy engine) are never consulted — and write one new
audit row built from the original's snapshots, whose trace marks replay
mode.  The executor's outcome, the measured latency, the clock and the
generated new audit id are explicit arguments (I/O in the source).  Returns
the outcome and the list of audit rows written. -/
def replay (collaborators : SemanticCollaborators) (audits : List ExecutionAudit)
    (audit_id : String) (outcome : Except String (List Row)) (elapsed_ms now : Int)
    (new_audit_id : String) : ReplayOutcome × List ExecutionAudit :=
  match load_audit audits audit_id with
  | none => (.auditMissing ("Audit record not found: " ++ audit_id), [])
  | some original =>
    if original.status != "success" then
      (.cannotReplay ("Cannot replay query with status: " ++ original.status)
        original, [])
    else
      let execution_result := ExecutionEngine.execute original.final_sql
        original.connection_ref none outcome elapsed_ms
      (.replayed audit_id new_audit_id
        (replay_new_audit original audit_id new_audit_id outcome elapsed_ms now)
        execution_result,
       [replay_new_audit original audit_id new_audit_id outcome elapsed_ms now])

/-- C8: replay reproduces the stored query exactly.  For a stored audit
record: a non-`success` original yields the structured `cannotReplay` return
(no exception, no audit written); a `success` original with stored final
query `q` is re-executed with exactly `q` against the originally recorded
connection reference, the single new audit row has final query `q` again,
and its trace opens with a `replay_start` entry carrying the replay-mode
marker and the source audit id; and the whole result is independent of the
resolver/matcher/policy collaborators — replay never consults them. -/
theorem c8_replay_reproduces_query (collab collab' : SemanticCollaborators)
    (audits : List ExecutionAudit) (audit_id : String)
    (outcome : Except String (List Row)) (elapsed_ms now : Int)
    (new_audit_id : String) (original : ExecutionAudit) (q : String)
    (hload : load_audit audits audit_id = some original) :
    (original.status ≠ "success" →
      replay collab audits audit_id outcome elapsed_ms now new_audit_id =
        (.cannotReplay ("Cannot replay query with status: " ++ original.status)
          original, []))
    ∧ (original.status = "success" → original.final_sql = some q →
        ∃ na, replay collab audits audit_id outcome elapsed_ms now new_audit_id =
            (.replayed audit_id new_audit_id na
              (ExecutionEngine.execute (some q) original.connection_ref none
                outcome elapsed_ms), [na])
          ∧ na.final_sql = some q
          ∧ na.connection_ref = some (original.connection_ref.getD "")
          ∧ na.decision_trace.head?.map (·.step) = some "replay_start"
          ∧ na.decision_trace.head?.map (fun t => dictGet t.data "replay_mode")
              = some (some "True")
          ∧ na.decision_trace.head?.map
              (fun t => dictGet t.data "replay_source_audit_id")
              = some (some audit_id))
    ∧ replay collab audits audit_id outcome elapsed_ms now new_audit_id =
        replay collab' audits audit_id outcome elapsed_ms now new_audit_id := by
  refine ⟨?_, ?_, rfl⟩
  · intro hst
    have hbne : (original.status != "success") = true := by
      simp [bne_iff_ne, hst]
    unfold replay
    rw [hload]
    simp only [hbne, if_true]
  · intro hst hq
    have hbne : (original.status != "success") = false := by
      simp [hst]
    refine ⟨replay_new_audit original audit_id new_audit_id outcome elapsed_ms now,
      ?_, ?_, ?_, ?_, ?_, ?_⟩
    · unfold replay
      rw [hload]
      simp only [hbne, Bool.false_eq_true, if_false]
      rw [hq]
    · simp [replay_new_audit, create_audit_record, hq]
    · simp [replay_new_audit, create_audit_record]
    · simp [replay_new_audit, create_audit_record, replay_trace]
    · simp [replay_new_audit, create_audit_record, replay_trace, dictGet,
        List.lookup]
    · simp [replay_new_audit, create_audit_record, replay_trace, dictGet,
        List.lookup]

/-- The stored success audit of the C8 witness. -/
def c8wOriginal : ExecutionAudit :=
  { id := 1, audit_id := "A1", question := "FPY last week",
    semantic_object_id := some 1, semantic_object_name := some "FPY",
    version_id := some 1, version_name := some "FPY_v1",
    logical_definition_id := some 1, logical_expression := some "good / total",
    physical_mapping_id := some 1, connection_ref := some "default",
    final_sql := some "SELECT 1", decision_trace := [],
    request_params := none, user_id := some 7, user_role := some "analyst",
    policy_decision := some (true, 1), executed_at := some 0,
    status := "success", row_count := some 1, execution_time_ms := some 5,
    error_message := none }

/-- Trivial collaborators for the C8 witness (replay never consults them). -/
def c8wCollab : SemanticCollaborators :=
  { objects := [], extractKeywords := fun _ => [], getVersions := fun _ => [],
    getLogicalDefinition := fun _ => none,
    grainValidate := fun _ _ _ => { status := "PASS", reason := "", suggestions := [] },
    getPhysicalMappings := fun _ _ => [], getPolicies := fun _ _ _ => [] }

/-- C8 witness: the theorem applied to a concrete stored success audit whose
final query is `SELECT 1`. -/
theorem c8_witness :
    ∃ na, replay c8wCollab [c8wOriginal] "A1" (.ok []) 3 9 "A2" =
        (.replayed "A1" "A2" na
          (ExecutionEngine.execute (some "SELECT 1") (some "default") none
            (.ok []) 3), [na])
      ∧ na.final_sql = some "SELECT 1"
      ∧ na.connection_ref = some "default"
      ∧ na.decision_trace.head?.map (·.step) = some "replay_start"
      ∧ na.decision_trace.head?.map (fun t => dictGet t.data "replay_mode")
          = some (some "True")
      ∧ na.decision_trace.head?.map
          (fun t => dictGet t.data "replay_source_audit_id")
          = some (some "A1") :=
  (c8_replay_reproduces_query c8wCollab c8wCollab [c8wOriginal] "A1" (.ok []) 3 9
    "A2" c8wOriginal "SELECT 1" rfl).2.1 rfl rfl

/-- The candidates attached to an ambiguity error response: object
candidates `(id, name, domain)` from step 1, or version candidates
`(id, name, priority)` from step 2. -/
inductive AmbCandidates where
  | objects (l : List (Int × String × String))
  | versions (l : List (Int × String × Int))
  deriving Repr, DecidableEq

/-- The result dict of `SemanticOrchestrator.query`, by terminal outcome:
`preview` (no execution), `completed` (executed; its status is `success` or
`error`), `denied` (policy denial), `errored` (resolution or unexpected
failure, with the exception class name when the source reports one and the
ambiguity candidates when present).  The decision trace, also returned to
the caller, is carried in the audit row. -/
inductive QueryResponse where
  | preview (audit_id semantic_object version logic sql : String)
  | completed (audit_id status semantic_object version logic sql : String)
      (data : List Row) (row_count : Nat) (execution_time_ms : Option Int)
  | denied (audit_id error : String)
  | errored (audit_id : String) (error_type : Option String) (error : String)
      (candidates : Option AmbCandidates)
  deriving Repr, DecidableEq

/-- The reason strings of the policy engine (policy_engine.py), as carried by
`PolicyDeniedError`. -/
def reason_message : DecisionReason → String
  | .noPoliciesDefault => "No access policies defined - default deny"
  | .deniedByPolicy id => "Denied by policy " ++ toString id
  | .allowedBy n => "Allowed by " ++ toString n ++ " policy(ies)"
  | .noMatchingAllowDefault => "No matching allow policy found - default deny"

/-- A decision-trace entry with an empty payload (the entries' `data` dicts
are not inspected by any claim; step names and order are kept). -/
def mkStep (step : String) (now : Int) : TraceEntry :=
  { step := step, timestamp := now, data := [] }

/-- The `parameters` dict of a `query()` call: its `scenario` entry (a
nested dict, read by `parameters.get('scenario')`) and the remaining
scalar entries (validated by render and matched by policy conditions). -/
structure QueryParams where
  scenario : Option Dict
  entries : Dict
  deriving Repr, DecidableEq

/-- `SemanticOrchestrator.query` (orchestrator.py:112-397): the linear
pipeline resolve-object → resolve-version → resolve-logic → grain-validate →
resolve-mapping → policy-check → render → (preview | execute → audit), with
the source's three exception handlers at the orchestrator boundary:
`PolicyDeniedError` yields a `denied` response, `AmbiguityError` and
`VersionNotFoundError` yield an `error` response, and any other exception
(`ValueError` from object-not-found, grain failure or render validation,
`MappingNotFoundError`, internal errors) is caught by the generic handler —
all three write their audit row through `save_denied`.  Preview returns
after render without writing an audit row.  The executor outcome, latency,
clock, generated audit id and configured engine tag are explicit arguments
(I/O and configuration in the source); interpolated message fragments are
dropped.  Returns the response and the audit rows written. -/
def query (collab : SemanticCollaborators) (question : String) (params : QueryParams)
    (context : ExecutionContext) (preview_only : Bool)
    (default_engine_type : String) (audit_id : String)
    (outcome : Except String (List Row)) (elapsed_ms now : Int) :
    QueryResponse × List ExecutionAudit :=
  let t0 := [mkStep "resolve_semantic_object_start" now]
  match resolve_semantic_object collab.objects (collab.extractKeywords question) with
  | .error (.notFound msg) =>
    (.errored audit_id none msg none,
     [save_denied_audit audit_id question none
       (t0 ++ [mkStep "unexpected_error" now]) context msg])
  | .error (.ambiguity cands msg) =>
    (.errored audit_id (some "AmbiguityError") msg (some (.objects cands)),
     [save_denied_audit audit_id question none
       (t0 ++ [mkStep "resolution_error" now]) context msg])
  | .ok semantic_obj =>
    let t1 := t0 ++ [mkStep "resolve_semantic_object_complete" now,
      mkStep "resolve_version_start" now]
    match resolve_version (collab.getVersions semantic_obj.id) params.scenario
        context.timestamp with
    | .error (.versionNotFound msg) =>
      (.errored audit_id (some "VersionNotFoundError") msg none,
       [save_denied_audit audit_id question (some semantic_obj)
         (t1 ++ [mkStep "resolution_error" now]) context msg])
    | .error (.ambiguity cands msg) =>
      (.errored audit_id (some "AmbiguityError") msg (some (.versions cands)),
       [save_denied_audit audit_id question (some semantic_obj)
         (t1 ++ [mkStep "resolution_error" now]) context msg])
    | .error (.internalError msg) =>
      (.errored audit_id none msg none,
       [save_denied_audit audit_id question (some semantic_obj)
         (t1 ++ [mkStep "unexpected_error" now]) context msg])
    | .ok version =>
      let t2 := t1 ++ [mkStep "resolve_version_complete" now,
        mkStep "resolve_logic_start" now]
      match collab.getLogicalDefinition version.id with
      | none =>
        (.errored audit_id none "No logical definition found" none,
         [save_denied_audit audit_id question (some semantic_obj)
           (t2 ++ [mkStep "unexpected_error" now]) context
           "No logical definition found"])
      | some logical_def =>
        let t3 := t2 ++ [mkStep "resolve_logic_complete" now]
        let validation := collab.grainValidate semantic_obj.id params.entries
          (logical_def.grain.getD "")
        let t4 := t3 ++ [mkStep "grain_validation" now]
        if validation.status == "FAIL" then
          (.errored audit_id none validation.reason none,
           [save_denied_audit audit_id question (some semantic_obj)
             (t4 ++ [mkStep "unexpected_error" now]) context validation.reason])
        else
          match ExecutionEngine.resolve_physical_mapping
              (collab.getPhysicalMappings logical_def.id default_engine_type) with
          | .error msg =>
            (.errored audit_id none msg none,
             [save_denied_audit audit_id question (some semantic_obj)
               (t4 ++ [mkStep "resolve_physical_mapping_start" now,
                 mkStep "unexpected_error" now]) context msg])
          | .ok physical_mapping =>
            let t5 := t4 ++ [mkStep "resolve_physical_mapping_start" now,
              mkStep "resolve_physical_mapping_complete" now,
              mkStep "policy_check_start" now]
            match check_access
                (collab.getPolicies semantic_obj.id context.role "query")
                (some params.entries) with
            | .error reason =>
              (.denied audit_id (reason_message reason),
               [save_denied_audit audit_id question (some semantic_obj)
                 (t5 ++ [mkStep "policy_denied" now]) context
                 (reason_message reason)])
            | .ok policy_decision =>
              let t6 := t5 ++ [mkStep "policy_check_complete" now,
                mkStep "render_sql_start" now]
              match render_sql physical_mapping params.entries with
              | .error missing =>
                (.errored audit_id none
                  ("Missing required parameters: " ++ String.intercalate ", " missing)
                  none,
                 [save_denied_audit audit_id question (some semantic_obj)
                   (t6 ++ [mkStep "unexpected_error" now]) context
                   ("Missing required parameters: " ++ String.intercalate ", " missing)])
              | .ok sql =>
                let t7 := t6 ++ [mkStep "render_sql_complete" now]
                if preview_only then
                  (.preview audit_id semantic_obj.name version.version_name
                    logical_def.expression sql, [])
                else
                  let execution_result := ExecutionEngine.execute (some sql)
                    (some physical_mapping.connection_ref) (some params.entries)
                    outcome elapsed_ms
                  let status := if execution_result.success then "success" else "error"
                  (.completed audit_id status semantic_obj.name version.version_name
                    logical_def.expression sql execution_result.data
                    execution_result.row_count execution_result.execution_time_ms,
                   [create_audit_record audit_id question semantic_obj
                     version logical_def physical_mapping sql
                     (t7 ++ [mkStep "execution_start" now,
                       mkStep "execution_complete" now]) context
                     (policy_decision.allow, policy_decision.policies.length)
                     execution_result status now])

/-- C10: failure audit rows are always `'denied'`.  For every `query()`
call: a `denied` response writes exactly one audit row with status
`'denied'`; an `error` response — every caught failure: ambiguity,
version-not-found, grain violation, policy errors aside, missing mapping,
render validation, unexpected exceptions — also writes exactly one audit
row with status `'denied'` even though the response says `error`; a
completed execution writes exactly one audit row whose status equals the
response status, which is `'success'` iff the executor returned rows and
`'error'` iff it raised; preview writes no audit row. -/
theorem c10_failure_audits_are_denied (collab : SemanticCollaborators)
    (question : String) (params : QueryParams) (context : ExecutionContext)
    (preview_only : Bool) (default_engine_type : String) (audit_id : String)
    (outcome : Except String (List Row)) (elapsed_ms now : Int)
    (out : QueryResponse × List ExecutionAudit)
    (hout : query collab question params context preview_only
      default_engine_type audit_id outcome elapsed_ms now = out) :
    (∀ aid err, out.1 = .denied aid err →
      out.2.map (·.status) = ["denied"])
    ∧ (∀ aid et err cands, out.1 = .errored aid et err cands →
        out.2.map (·.status) = ["denied"])
    ∧ (∀ aid st so v lg sql data rc t,
        out.1 = .completed aid st so v lg sql data rc t →
        out.2.map (·.status) = [st] ∧
        (st = "success" ↔ ∃ rows, outcome = .ok rows) ∧
        (st = "error" ↔ ∃ e, outcome = .error e))
    ∧ (∀ aid so v lg sql, out.1 = .preview aid so v lg sql → out.2 = []) := by
  simp only [query] at hout
  repeat' split at hout
  all_goals subst hout
  all_goals refine ⟨fun aid err h => ?_, fun aid et err cands h => ?_,
    fun aid st so v lg sql data rc t h => ?_, fun aid so v lg sql h => ?_⟩
  all_goals try injection h
  all_goals try first
    | rfl
    | simp [save_denied_audit]
  -- the two completed-execution branches remain
  all_goals
    rename_i hexec e1 e2 e3 e4 e5 e6 e7 e8 e9
  all_goals subst e2
  all_goals refine ⟨by simp [create_audit_record], ?_, ?_⟩
  all_goals cases outcome
  all_goals simp only [ExecutionEngine.execute] at hexec ⊢
  all_goals try exact absurd hexec (by decide)
  all_goals constructor
  all_goals intro hx
  all_goals try exact ⟨_, rfl⟩
  all_goals try trivial
  all_goals
    obtain ⟨w, hw⟩ := hx
  all_goals exact absurd hw (by simp)

/-- The collaborators of the C10 witness: one matching object with no
versions, so step 2 raises `VersionNotFoundError`, the response status is
`error`, and the audit row status is `denied`. -/
def c10wCollab : SemanticCollaborators :=
  { objects := [{ id := 1, name := "FPY", description := "First pass yield",
                  aliases := [], domain := "quality" }],
    extractKeywords := fun _ => ["fpy"],
    getVersions := fun _ => [],
    getLogicalDefinition := fun _ => none,
    grainValidate := fun _ _ _ => { status := "PASS", reason := "", suggestions := [] },
    getPhysicalMappings := fun _ _ => [],
    getPolicies := fun _ _ _ => [] }

/-- C10 witness: the theorem applied to a concrete call that fails with
`VersionNotFoundError` — the response is an `error`, yet the single audit
row written has status `denied`. -/
theorem c10_witness :
    (query c10wCollab "FPY last week" { scenario := none, entries := [] }
      { user_id := 7, role := "analyst", parameters := [], timestamp := 0 }
      false "sqlite" "A1" (.ok []) 1 2).2.map (·.status) = ["denied"] :=
  (c10_failure_audits_are_denied c10wCollab "FPY last week"
    { scenario := none, entries := [] }
    { user_id := 7, role := "analyst", parameters := [], timestamp := 0 }
    false "sqlite" "A1" (.ok []) 1 2 _ rfl).2.1 "A1"
    (some "VersionNotFoundError") "No versions found for semantic object" none
    (by decide)

end SemanticLayer
